import Mathlib

/-!
Verification of the cozyreq agent crate: a shallow embedding of the
orchestration loop (Agent::run in crates/agent/src/lib.rs), the wire codec
(crates/agent/src/claude.rs) and the data model (crates/agent/src/types.rs),
with theorems settling the specified properties.
-/

/-- Structured JSON data (serde_json::Value): the opaque tool input and
schema values passed through the core unmodified. Numbers are modelled as
integers; the core never inspects numeric contents. -/
inductive Json where
  | null : Json
  | bool : Bool → Json
  | num : Int → Json
  | str : String → Json
  | arr : List Json → Json
  | obj : List (String × Json) → Json

/-- A tool implementation: `Box<dyn Fn(serde_json::Value) -> Result<String, String>>`
from types.rs. -/
def ToolFn : Type := Json → Except String String

/-- ContentBlock from types.rs: text or tool-use blocks inside assistant
messages. -/
inductive ContentBlock where
  | text : String → ContentBlock
  | toolUse : (id : String) → (name : String) → (input : Json) → ContentBlock

/-- Message from types.rs: a turn in the conversation history. -/
inductive Message where
  | user : (content : String) → Message
  | assistant : (content : List ContentBlock) → Message
  | toolResult : (tool_use_id : String) → (content : String) → Message

/-- AgentError from types.rs. The Rust enum has exactly these four
constructors: ApiError(String), ParseError(String), ToolNotFound(String),
Cancelled. -/
inductive AgentError where
  | apiError : String → AgentError
  | parseError : String → AgentError
  | toolNotFound : String → AgentError
  | cancelled : AgentError

/-- Tool descriptor from types.rs. -/
structure Tool where
  name : String
  description : String
  input_schema : Json

/-- The Agent struct from lib.rs. The HashMap of tool implementations is
modelled by its lookup function (HashMap::get, exact name match). -/
structure Agent where
  api_key : String
  model : String
  system_prompt : String
  tools : List Tool
  tool_implementations : String → Option ToolFn

/-- Agent::new from lib.rs lines 24-44. The read of the ANTHROPIC_API_KEY
environment variable is modelled as an Option String supplied by the
environment collaborator; on a missing variable the code returns
AgentError::ApiError with this exact text. -/
def Agent.new (system_prompt : String) (tools : List Tool)
    (tool_implementations : String → Option ToolFn) (env_api_key : Option String) :
    Except AgentError Agent :=
  match env_api_key with
  | none => Except.error (AgentError.apiError "ANTHROPIC_API_KEY environment variable not set")
  | some api_key =>
      Except.ok ⟨api_key, "claude-sonnet-4-5", system_prompt, tools, tool_implementations⟩

/-! Wire codec (claude.rs): encoding of content blocks into the request
JSON and decoding of the response content items. -/

/-- ApiContentBlock from claude.rs lines 38-49: the deserialized response
content item, internally tagged on the "type" field. -/
inductive ApiContentBlock where
  | text : String → ApiContentBlock
  | toolUse : (id : String) → (name : String) → (input : Json) → ApiContentBlock

/-- Encoding of one assistant ContentBlock into its wire content item, as
built by messages_to_api_format in claude.rs lines 72-87. -/
def encodeContentBlock : ContentBlock → Json
  | ContentBlock.text t =>
      Json.obj [("type", Json.str "text"), ("text", Json.str t)]
  | ContentBlock.toolUse id name input =>
      Json.obj [("type", Json.str "tool_use"), ("id", Json.str id),
                ("name", Json.str name), ("input", input)]

/-- First-match field lookup in a JSON object, as serde performs on a map of
fields. -/
def jsonLookup : List (String × Json) → String → Option Json
  | [], _ => none
  | (k, v) :: rest, key => if k = key then some v else jsonLookup rest key

/-- Extract a JSON string, as serde does when deserializing a String field. -/
def asString : Json → Option String
  | Json.str s => some s
  | _ => none

/-- Decoding of a wire content item into ApiContentBlock: serde's
internally-tagged deserialization (tag field "type", variants "text" and
"tool_use"; unknown extra fields are ignored, serde's default). -/
def decodeApiContentBlock : Json → Option ApiContentBlock
  | Json.obj fields =>
    match jsonLookup fields "type" with
    | some (Json.str "text") =>
        match (jsonLookup fields "text").bind asString with
        | some t => some (ApiContentBlock.text t)
        | none => none
    | some (Json.str "tool_use") =>
        match (jsonLookup fields "id").bind asString,
              (jsonLookup fields "name").bind asString,
              jsonLookup fields "input" with
        | some id, some name, some input => some (ApiContentBlock.toolUse id name input)
        | _, _, _ => none
    | _ => none
  | _ => none

/-- The conversion from ApiContentBlock to ContentBlock performed in
call_claude_api, claude.rs lines 191-200. -/
def apiBlockToContentBlock : ApiContentBlock → ContentBlock
  | ApiContentBlock.text t => ContentBlock.text t
  | ApiContentBlock.toolUse id name input => ContentBlock.toolUse id name input

/-! Orchestration loop (Agent::run, lib.rs lines 55-178). The network
exchange is modelled by a script: the list of results the Wire Codec
returns for successive exchanges, each either an error or a pair of
content blocks and a stop reason. The cancellation token is modelled by
its value at the check performed at the top of each iteration. `none` as
the overall result means the scripted exchanges were exhausted while the
loop still wanted another exchange (the run's outcome is not determined
by the script). -/

/-- Result of one Wire Codec exchange, as returned by call_claude_api. -/
def ExchangeResult : Type := Except AgentError (List ContentBlock × String)

/-- Collect the tool-use blocks of an assistant response in content-block
order (lib.rs lines 112-120). -/
def collectToolUses (blocks : List ContentBlock) : List (String × String × Json) :=
  blocks.filterMap fun b =>
    match b with
    | ContentBlock.toolUse id name input => some (id, name, input)
    | _ => none

/-- The content recorded for one tool execution (lib.rs lines 139-156): a
success value verbatim, an error value wrapped in an "Error: " message. -/
def toolResultContent (f : ToolFn) (input : Json) : String :=
  match f input with
  | Except.ok output => output
  | Except.error e => "Error: " ++ e

/-- The tool-execution loop of lib.rs lines 125-163, with the mutable
message_history passed as explicit state. Returns the final value of the
history variable together with the error, if any, that the loop's early
return raised (ToolNotFound for the first unregistered name). -/
def execToolsState (impls : String → Option ToolFn) :
    List (String × String × Json) → List Message → List Message × Option AgentError
  | [], history => (history, none)
  | (id, name, input) :: rest, history =>
    match impls name with
    | none => (history, some (AgentError.toolNotFound name))
    | some f =>
        execToolsState impls rest
          (history ++ [Message.toolResult id (toolResultContent f input)])

/-- The main loop of Agent::run (lib.rs lines 68-175), one scripted
exchange consumed per iteration. -/
def runLoop (impls : String → Option ToolFn) (cancel : Nat → Bool) :
    List Message → Nat → List ExchangeResult →
    Option (Except AgentError (List Message))
  | _history, iter, [] =>
      if cancel iter then some (Except.error AgentError.cancelled) else none
  | _history, iter, Except.error e :: _ =>
      if cancel iter then some (Except.error AgentError.cancelled)
      else some (Except.error e)
  | history, iter, Except.ok (blocks, stop_reason) :: rest =>
      if cancel iter then some (Except.error AgentError.cancelled)
      else
        let h1 := history ++ [Message.assistant blocks]
        if stop_reason = "end_turn" then some (Except.ok h1)
        else if stop_reason = "tool_use" then
          match execToolsState impls (collectToolUses blocks) h1 with
          | (h2, none) => runLoop impls cancel h2 (iter + 1) rest
          | (_, some e) => some (Except.error e)
        else some (Except.ok h1)

/-- Agent::run (lib.rs lines 55-178): seed the history with the user
prompt and enter the loop. -/
def Agent.run (a : Agent) (prompt : String) (cancel : Nat → Bool)
    (script : List ExchangeResult) : Option (Except AgentError (List Message)) :=
  runLoop a.tool_implementations cancel [Message.user prompt] 0 script

/-! Shared fixtures for witnesses and counterexamples. -/

/-- A capability that always succeeds, as in the weather scenario. -/
def weatherTool : ToolFn := fun _ => Except.ok "Weather in X: 15 degrees celsius, sunny"

/-- A capability that always returns a domain error value. -/
def failTool : ToolFn := fun _ => Except.error "bad input"

/-- A concrete tool registry with two registered names. -/
def demoImpls : String → Option ToolFn := fun name =>
  if name = "get_weather" then some weatherTool
  else if name = "bad_tool" then some failTool
  else none

/-- A concrete agent built over demoImpls. -/
def demoAgent : Agent := ⟨"test-key", "claude-sonnet-4-5", "You are helpful", [], demoImpls⟩

/-- A cancellation signal that is never set. -/
def noCancel : Nat → Bool := fun _ => false

/-! Theorems. -/

/-- Claim C6: encoding a ToolInvocation content block to its wire
content-item form and decoding that form back yields a block with the
same id, the same name, and the same input value. -/
theorem toolUse_wire_roundtrip (id name : String) (input : Json) :
    (decodeApiContentBlock (encodeContentBlock (ContentBlock.toolUse id name input))).map
        apiBlockToContentBlock
      = some (ContentBlock.toolUse id name input) := rfl

/-- Claim C7, counterexample: with no credential supplied, Agent.new
returns the ApiError variant — the AgentError enum of the source has no
ConfigError constructor, so no error variant designated for construction
failures exists or is returned. -/
theorem agent_new_missing_credential_counterexample :
    Agent.new "You are helpful" [] demoImpls none
      = Except.error (AgentError.apiError "ANTHROPIC_API_KEY environment variable not set") := rfl

/-- Claim C7, amended: when the environment supplies no credential,
Agent.new fails with ApiError naming the missing environment variable
(the code reuses ApiError; it has no dedicated ConfigError variant);
when a credential is supplied, construction succeeds with the given
fields and the fixed model identifier. -/
theorem agent_new_credential_behavior :
    (∀ sp ts im, Agent.new sp ts im none
        = Except.error (AgentError.apiError "ANTHROPIC_API_KEY environment variable not set"))
    ∧ (∀ sp ts im key, Agent.new sp ts im (some key)
        = Except.ok ⟨key, "claude-sonnet-4-5", sp, ts, im⟩) :=
  ⟨fun _ _ _ => rfl, fun _ _ _ _ => rfl⟩

/-! Helper lemmas about the tool-execution loop and the main loop. -/

/-- The ToolResultMessages produced for a batch of invocations whose
names are all registered, in invocation order. -/
def mkResults (impls : String → Option ToolFn)
    (uses : List (String × String × Json)) : List Message :=
  uses.map fun u =>
    Message.toolResult u.1
      (match impls u.2.1 with
       | some f => toolResultContent f u.2.2
       | none => "")

theorem execToolsState_all_found (impls : String → Option ToolFn) :
    ∀ (uses : List (String × String × Json)) (h : List Message),
      (∀ u ∈ uses, (impls u.2.1).isSome) →
      execToolsState impls uses h = (h ++ mkResults impls uses, none) := by
  intro uses
  induction uses with
  | nil => intro h _; simp [execToolsState, mkResults]
  | cons u rest ih =>
    intro h hreg
    obtain ⟨id, name, input⟩ := u
    have hu : (impls name).isSome := hreg _ (List.mem_cons_self _ _)
    cases himpl : impls name with
    | none => rw [himpl] at hu; simp at hu
    | some f =>
      have hrest : ∀ u ∈ rest, (impls u.2.1).isSome :=
        fun u hu2 => hreg u (List.mem_cons_of_mem _ hu2)
      simp only [execToolsState, himpl]
      rw [ih _ hrest]
      simp [mkResults, himpl]

theorem execToolsState_missing (impls : String → Option ToolFn)
    (id name : String) (input : Json) :
    ∀ (executed rest : List (String × String × Json)) (h : List Message),
      (∀ u ∈ executed, (impls u.2.1).isSome) →
      impls name = none →
      execToolsState impls (executed ++ (id, name, input) :: rest) h
        = (h ++ mkResults impls executed, some (AgentError.toolNotFound name)) := by
  intro executed
  induction executed with
  | nil =>
    intro rest h _ hmiss
    simp [execToolsState, hmiss, mkResults]
  | cons u ex ih =>
    intro rest h hreg hmiss
    obtain ⟨id2, name2, input2⟩ := u
    have hu : (impls name2).isSome := hreg _ (List.mem_cons_self _ _)
    cases himpl : impls name2 with
    | none => rw [himpl] at hu; simp at hu
    | some f =>
      simp only [List.cons_append, execToolsState, himpl, List.append_eq]
      rw [ih rest _ (fun u hu2 => hreg u (List.mem_cons_of_mem _ hu2)) hmiss]
      simp [mkResults, himpl]

theorem execToolsState_extends (impls : String → Option ToolFn) :
    ∀ (uses : List (String × String × Json)) (h : List Message),
      ∃ t, h ++ t = (execToolsState impls uses h).1 := by
  intro uses
  induction uses with
  | nil => intro h; exact ⟨[], by simp [execToolsState]⟩
  | cons u rest ih =>
    intro h
    obtain ⟨id, name, input⟩ := u
    cases himpl : impls name with
    | none => exact ⟨[], by simp [execToolsState, himpl]⟩
    | some f =>
      obtain ⟨t, ht⟩ := ih (h ++ [Message.toolResult id (toolResultContent f input)])
      refine ⟨Message.toolResult id (toolResultContent f input) :: t, ?_⟩
      simp only [execToolsState, himpl]
      rw [← ht]
      simp

theorem runLoop_toolUse_unfold (impls : String → Option ToolFn) (cancel : Nat → Bool)
    (h : List Message) (i : Nat) (blocks : List ContentBlock)
    (rest : List ExchangeResult) (hc : cancel i = false) :
    runLoop impls cancel h i (Except.ok (blocks, "tool_use") :: rest)
      = match execToolsState impls (collectToolUses blocks)
              (h ++ [Message.assistant blocks]) with
        | (h2, none) => runLoop impls cancel h2 (i + 1) rest
        | (_, some e) => some (Except.error e) := by
  simp [runLoop, hc]

theorem runLoop_extends (impls : String → Option ToolFn) (cancel : Nat → Bool) :
    ∀ (s : List ExchangeResult) (h : List Message) (i : Nat) (h' : List Message),
      runLoop impls cancel h i s = some (Except.ok h') → ∃ t, h ++ t = h' := by
  intro s
  induction s with
  | nil =>
    intro h i h' hrun
    simp only [runLoop] at hrun
    split at hrun <;> simp at hrun
  | cons resp rest ih =>
    intro h i h' hrun
    cases resp with
    | error e =>
      simp only [runLoop] at hrun
      split at hrun <;> simp at hrun
    | ok pr =>
      obtain ⟨blocks, stop⟩ := pr
      cases hc : cancel i with
      | true => simp [runLoop, hc] at hrun
      | false =>
        by_cases hend : stop = "end_turn"
        · subst hend
          have : runLoop impls cancel h i (Except.ok (blocks, "end_turn") :: rest)
              = some (Except.ok (h ++ [Message.assistant blocks])) := by
            simp [runLoop, hc]
          rw [this] at hrun
          simp only [Option.some.injEq, Except.ok.injEq] at hrun
          exact ⟨[Message.assistant blocks], hrun⟩
        · by_cases htool : stop = "tool_use"
          · subst htool
            rw [runLoop_toolUse_unfold impls cancel h i blocks rest hc] at hrun
            cases hexec : execToolsState impls (collectToolUses blocks)
                (h ++ [Message.assistant blocks]) with
            | mk h2 eopt =>
              rw [hexec] at hrun
              cases eopt with
              | none =>
                obtain ⟨t2, ht2⟩ := ih h2 (i + 1) h' hrun
                obtain ⟨t1, ht1⟩ := execToolsState_extends impls
                  (collectToolUses blocks) (h ++ [Message.assistant blocks])
                rw [hexec] at ht1
                refine ⟨Message.assistant blocks :: (t1 ++ t2), ?_⟩
                have : (h ++ [Message.assistant blocks]) ++ t1 = h2 := ht1
                calc h ++ (Message.assistant blocks :: (t1 ++ t2))
                    = ((h ++ [Message.assistant blocks]) ++ t1) ++ t2 := by simp
                  _ = h2 ++ t2 := by rw [this]
                  _ = h' := ht2
              | some e => simp at hrun
          · have : runLoop impls cancel h i (Except.ok (blocks, stop) :: rest)
                = some (Except.ok (h ++ [Message.assistant blocks])) := by
              simp [runLoop, hc, hend, htool]
            rw [this] at hrun
            simp only [Option.some.injEq, Except.ok.injEq] at hrun
            exact ⟨[Message.assistant blocks], hrun⟩

/-- A cancellation signal that is already set. -/
def yesCancel : Nat → Bool := fun _ => true

/-- Claim C1: for an exchange returning stop signal tool_use whose N
tool-invocation blocks all name registered capabilities, exactly N
ToolResultMessages are appended after the AssistantMessage, the j-th
carrying the id of the j-th invocation block in block order, and all N
are in the history before the next exchange is issued. -/
theorem agent_run_toolUse_appends_results (impls : String → Option ToolFn)
    (cancel : Nat → Bool) (h : List Message) (i : Nat)
    (blocks : List ContentBlock) (rest : List ExchangeResult)
    (hc : cancel i = false)
    (hreg : ∀ u ∈ collectToolUses blocks, (impls u.2.1).isSome) :
    ∃ results : List Message,
      results.length = (collectToolUses blocks).length
      ∧ (∀ j (hj : j < results.length) (hj2 : j < (collectToolUses blocks).length),
          ∃ c, results.get ⟨j, hj⟩
            = Message.toolResult ((collectToolUses blocks).get ⟨j, hj2⟩).1 c)
      ∧ runLoop impls cancel h i (Except.ok (blocks, "tool_use") :: rest)
          = runLoop impls cancel (h ++ [Message.assistant blocks] ++ results)
              (i + 1) rest := by
  refine ⟨mkResults impls (collectToolUses blocks), ?_, ?_, ?_⟩
  · simp [mkResults]
  · intro j hj hj2
    refine ⟨(match impls ((collectToolUses blocks).get ⟨j, hj2⟩).2.1 with
             | some f => toolResultContent f ((collectToolUses blocks).get ⟨j, hj2⟩).2.2
             | none => ""), ?_⟩
    simp [mkResults, List.get_eq_getElem, List.getElem_map]
  · rw [runLoop_toolUse_unfold impls cancel h i blocks rest hc,
        execToolsState_all_found impls _ _ hreg]

theorem agent_run_toolUse_appends_results_witness :
    ∃ results : List Message,
      results.length
          = (collectToolUses [ContentBlock.toolUse "t1" "get_weather" (Json.obj [])]).length
      ∧ (∀ j (hj : j < results.length)
           (hj2 : j < (collectToolUses
                        [ContentBlock.toolUse "t1" "get_weather" (Json.obj [])]).length),
          ∃ c, results.get ⟨j, hj⟩
            = Message.toolResult
                ((collectToolUses
                    [ContentBlock.toolUse "t1" "get_weather" (Json.obj [])]).get
                  ⟨j, hj2⟩).1 c)
      ∧ runLoop demoImpls noCancel [Message.user "weather?"] 0
            (Except.ok ([ContentBlock.toolUse "t1" "get_weather" (Json.obj [])],
              "tool_use") :: [])
          = runLoop demoImpls noCancel
              ([Message.user "weather?"]
                 ++ [Message.assistant [ContentBlock.toolUse "t1" "get_weather" (Json.obj [])]]
                 ++ results) (0 + 1) [] :=
  agent_run_toolUse_appends_results demoImpls noCancel [Message.user "weather?"] 0
    [ContentBlock.toolUse "t1" "get_weather" (Json.obj [])] [] rfl (by decide)

/-- Claim C2: an exchange returning stop signal end_turn makes the run
terminate successfully with the new AssistantMessage as the last message
of the returned history; no ToolResultMessage follows it. -/
theorem agent_run_endTurn_terminates (impls : String → Option ToolFn)
    (cancel : Nat → Bool) (h : List Message) (i : Nat)
    (blocks : List ContentBlock) (rest : List ExchangeResult)
    (hc : cancel i = false) :
    runLoop impls cancel h i (Except.ok (blocks, "end_turn") :: rest)
      = some (Except.ok (h ++ [Message.assistant blocks]))
    ∧ (h ++ [Message.assistant blocks]).getLast? = some (Message.assistant blocks) := by
  constructor
  · simp [runLoop, hc]
  · simp [List.getLast?_concat]

theorem agent_run_endTurn_terminates_witness :
    runLoop demoImpls noCancel [Message.user "Hello"] 0
        [Except.ok ([ContentBlock.text "Hi!"], "end_turn")]
      = some (Except.ok ([Message.user "Hello"]
          ++ [Message.assistant [ContentBlock.text "Hi!"]]))
    ∧ ([Message.user "Hello"] ++ [Message.assistant [ContentBlock.text "Hi!"]]).getLast?
      = some (Message.assistant [ContentBlock.text "Hi!"]) :=
  agent_run_endTurn_terminates demoImpls noCancel [Message.user "Hello"] 0
    [ContentBlock.text "Hi!"] [] rfl

/-- Claim C3, counterexample: a batch whose second invocation names an
unregistered tool makes the run return only the ToolNotFound error; no
conversation state at all — in particular not the ToolResultMessage
already appended for the first invocation — is returned to the caller,
because the result type's error side carries just the name. -/
theorem agent_run_toolNotFound_drops_history_counterexample :
    runLoop demoImpls noCancel [Message.user "hi"] 0
        [Except.ok ([ContentBlock.toolUse "t1" "get_weather" (Json.obj []),
                     ContentBlock.toolUse "t2" "missing" (Json.obj [])], "tool_use")]
      = some (Except.error (AgentError.toolNotFound "missing")) := rfl

/-- Claim C3, amended: when a batch reaches an invocation whose name has
no registered capability, the run returns the error ToolNotFound(name)
for the first such name, and the ToolResultMessages already appended for
the earlier invocations of the batch remain in the internal conversation
state at the moment of failure (no rollback) — but that partial state is
not returned to the caller, who receives only the error value. -/
theorem agent_run_toolNotFound_returns_error_only (impls : String → Option ToolFn)
    (cancel : Nat → Bool) (h : List Message) (i : Nat)
    (blocks : List ContentBlock) (rest : List ExchangeResult)
    (executed rest' : List (String × String × Json))
    (id name : String) (input : Json)
    (hc : cancel i = false)
    (hcol : collectToolUses blocks = executed ++ (id, name, input) :: rest')
    (hreg : ∀ u ∈ executed, (impls u.2.1).isSome)
    (hmiss : impls name = none) :
    runLoop impls cancel h i (Except.ok (blocks, "tool_use") :: rest)
      = some (Except.error (AgentError.toolNotFound name))
    ∧ (execToolsState impls (collectToolUses blocks)
          (h ++ [Message.assistant blocks])).1
        = h ++ [Message.assistant blocks] ++ mkResults impls executed := by
  have hstate := execToolsState_missing impls id name input executed rest'
      (h ++ [Message.assistant blocks]) hreg hmiss
  constructor
  · rw [runLoop_toolUse_unfold impls cancel h i blocks rest hc, hcol, hstate]
  · rw [hcol, hstate]

theorem agent_run_toolNotFound_returns_error_only_witness :
    runLoop demoImpls noCancel [Message.user "hi"] 0
        [Except.ok ([ContentBlock.toolUse "t1" "get_weather" (Json.obj []),
                     ContentBlock.toolUse "t2" "missing" (Json.obj [])], "tool_use")]
      = some (Except.error (AgentError.toolNotFound "missing"))
    ∧ (execToolsState demoImpls
          (collectToolUses [ContentBlock.toolUse "t1" "get_weather" (Json.obj []),
                            ContentBlock.toolUse "t2" "missing" (Json.obj [])])
          ([Message.user "hi"]
             ++ [Message.assistant [ContentBlock.toolUse "t1" "get_weather" (Json.obj []),
                                    ContentBlock.toolUse "t2" "missing" (Json.obj [])]])).1
        = [Message.user "hi"]
            ++ [Message.assistant [ContentBlock.toolUse "t1" "get_weather" (Json.obj []),
                                   ContentBlock.toolUse "t2" "missing" (Json.obj [])]]
            ++ mkResults demoImpls [("t1", "get_weather", Json.obj [])] :=
  agent_run_toolNotFound_returns_error_only demoImpls noCancel [Message.user "hi"] 0
    [ContentBlock.toolUse "t1" "get_weather" (Json.obj []),
     ContentBlock.toolUse "t2" "missing" (Json.obj [])] []
    [("t1", "get_weather", Json.obj [])] [] "t2" "missing" (Json.obj [])
    rfl rfl (by decide) rfl

/-- Claim C4: a capability returning an error value e yields a
ToolResultMessage whose content is the string "Error: " followed by e,
without failing the run; a success value becomes the content verbatim;
and with such a batch the loop proceeds to the next exchange with the
wrapped result appended. -/
theorem tool_error_wrapped_nonfatal (impls : String → Option ToolFn)
    (cancel : Nat → Bool) (f : ToolFn) (id name : String) (input : Json)
    (uses : List (String × String × Json)) (h : List Message)
    (i : Nat) (rest : List ExchangeResult) (e out : String)
    (hf : impls name = some f) :
    (f input = Except.error e →
      execToolsState impls ((id, name, input) :: uses) h
        = execToolsState impls uses (h ++ [Message.toolResult id ("Error: " ++ e)]))
    ∧ (f input = Except.ok out →
      execToolsState impls ((id, name, input) :: uses) h
        = execToolsState impls uses (h ++ [Message.toolResult id out]))
    ∧ (f input = Except.error e → cancel i = false →
      runLoop impls cancel h i
          (Except.ok ([ContentBlock.toolUse id name input], "tool_use") :: rest)
        = runLoop impls cancel
            (h ++ [Message.assistant [ContentBlock.toolUse id name input]]
               ++ [Message.toolResult id ("Error: " ++ e)]) (i + 1) rest) := by
  refine ⟨?_, ?_, ?_⟩
  · intro herr
    simp [execToolsState, hf, toolResultContent, herr]
  · intro hok
    simp [execToolsState, hf, toolResultContent, hok]
  · intro herr hc
    rw [runLoop_toolUse_unfold impls cancel h i _ rest hc]
    simp [collectToolUses, execToolsState, hf, toolResultContent, herr]

theorem tool_error_wrapped_nonfatal_witness :
    runLoop demoImpls noCancel [Message.user "hi"] 0
        [Except.ok ([ContentBlock.toolUse "t9" "bad_tool" (Json.obj [])], "tool_use")]
      = runLoop demoImpls noCancel
          ([Message.user "hi"]
             ++ [Message.assistant [ContentBlock.toolUse "t9" "bad_tool" (Json.obj [])]]
             ++ [Message.toolResult "t9" ("Error: " ++ "bad input")]) (0 + 1) [] :=
  (tool_error_wrapped_nonfatal demoImpls noCancel failTool "t9" "bad_tool" (Json.obj [])
    [] [Message.user "hi"] 0 [] "bad input" "unused" rfl).2.2 rfl rfl

/-- Claim C5: when the cancellation signal is set at the top of an
iteration, the loop returns the Cancelled error without issuing that
iteration's exchange (the result is the same for every script, so no
scripted exchange is consumed); in particular a run whose signal is set
before the first iteration returns Cancelled with zero exchanges. -/
theorem cancellation_before_exchange (cancel : Nat → Bool) :
    (∀ (impls : String → Option ToolFn) (h : List Message) (i : Nat)
        (s : List ExchangeResult),
      cancel i = true →
        runLoop impls cancel h i s = some (Except.error AgentError.cancelled))
    ∧ (cancel 0 = true →
        ∀ (a : Agent) (prompt : String) (s : List ExchangeResult),
          a.run prompt cancel s = some (Except.error AgentError.cancelled)) := by
  have key : ∀ (impls : String → Option ToolFn) (h : List Message) (i : Nat)
      (s : List ExchangeResult),
      cancel i = true →
        runLoop impls cancel h i s = some (Except.error AgentError.cancelled) := by
    intro impls h i s hc
    cases s with
    | nil => simp [runLoop, hc]
    | cons resp rest =>
      cases resp with
      | error e => simp [runLoop, hc]
      | ok pr =>
        obtain ⟨blocks, stop⟩ := pr
        simp [runLoop, hc]
  refine ⟨key, ?_⟩
  intro hc a prompt s
  exact key a.tool_implementations [Message.user prompt] 0 s hc

theorem cancellation_before_exchange_witness :
    Agent.run demoAgent "Hello" yesCancel [] = some (Except.error AgentError.cancelled) :=
  (cancellation_before_exchange yesCancel).2 rfl demoAgent "Hello" []

/-- Claim C8: an exchange returning a stop signal that is neither
end_turn nor tool_use is treated as completion: the AssistantMessage is
appended and the run returns the full conversation successfully. -/
theorem agent_run_unknown_stop_completes (impls : String → Option ToolFn)
    (cancel : Nat → Bool) (h : List Message) (i : Nat)
    (blocks : List ContentBlock) (rest : List ExchangeResult) (stop : String)
    (hc : cancel i = false) (hend : stop ≠ "end_turn") (htool : stop ≠ "tool_use") :
    runLoop impls cancel h i (Except.ok (blocks, stop) :: rest)
      = some (Except.ok (h ++ [Message.assistant blocks])) := by
  simp [runLoop, hc, hend, htool]

theorem agent_run_unknown_stop_completes_witness :
    runLoop demoImpls noCancel [Message.user "Hello"] 0
        [Except.ok ([ContentBlock.text "truncated"], "max_tokens")]
      = some (Except.ok ([Message.user "Hello"]
          ++ [Message.assistant [ContentBlock.text "truncated"]])) :=
  agent_run_unknown_stop_completes demoImpls noCancel [Message.user "Hello"] 0
    [ContentBlock.text "truncated"] [] "max_tokens" rfl (by decide) (by decide)

/-- Claim C9: the run's history starts with the UserMessage built from
the caller's prompt and is append-only: the tool-execution loop and the
main loop only ever extend the history they are given at the end, so
every history a step starts from is an initial segment of every later
one, and the first message of a successful run's result is the seeded
UserMessage. -/
theorem conversation_append_only :
    (∀ (impls : String → Option ToolFn) (uses : List (String × String × Json))
        (h : List Message),
      ∃ t, h ++ t = (execToolsState impls uses h).1)
    ∧ (∀ (impls : String → Option ToolFn) (cancel : Nat → Bool)
        (s : List ExchangeResult) (h : List Message) (i : Nat) (h' : List Message),
      runLoop impls cancel h i s = some (Except.ok h') → ∃ t, h ++ t = h')
    ∧ (∀ (a : Agent) (prompt : String) (cancel : Nat → Bool)
        (s : List ExchangeResult) (h' : List Message),
      a.run prompt cancel s = some (Except.ok h') →
        h'.head? = some (Message.user prompt)) := by
  refine ⟨fun impls uses h => execToolsState_extends impls uses h,
          fun impls cancel s h i h' hr => runLoop_extends impls cancel s h i h' hr, ?_⟩
  intro a prompt cancel s h' hrun
  obtain ⟨t, ht⟩ := runLoop_extends a.tool_implementations cancel s
    [Message.user prompt] 0 h' hrun
  rw [← ht]
  rfl

theorem conversation_append_only_witness :
    ([Message.user "Hello", Message.assistant [ContentBlock.text "Hi!"]] :
        List Message).head?
      = some (Message.user "Hello") :=
  conversation_append_only.2.2 demoAgent "Hello" noCancel
    [Except.ok ([ContentBlock.text "Hi!"], "end_turn")]
    [Message.user "Hello", Message.assistant [ContentBlock.text "Hi!"]] rfl

/-- Claim C10: an exchange returning stop signal tool_use with zero
tool-invocation blocks appends the AssistantMessage and immediately
issues the next exchange, with no ToolResultMessage in between and
without failing or terminating. -/
theorem agent_run_empty_toolUse_batch (impls : String → Option ToolFn)
    (cancel : Nat → Bool) (h : List Message) (i : Nat)
    (blocks : List ContentBlock) (rest : List ExchangeResult)
    (hc : cancel i = false) (hempty : collectToolUses blocks = []) :
    runLoop impls cancel h i (Except.ok (blocks, "tool_use") :: rest)
      = runLoop impls cancel (h ++ [Message.assistant blocks]) (i + 1) rest := by
  rw [runLoop_toolUse_unfold impls cancel h i blocks rest hc, hempty]
  simp [execToolsState]

theorem agent_run_empty_toolUse_batch_witness :
    runLoop demoImpls noCancel [Message.user "hi"] 0
        [Except.ok ([ContentBlock.text "hmm"], "tool_use"),
         Except.ok ([ContentBlock.text "done"], "end_turn")]
      = runLoop demoImpls noCancel
          ([Message.user "hi"] ++ [Message.assistant [ContentBlock.text "hmm"]]) (0 + 1)
          [Except.ok ([ContentBlock.text "done"], "end_turn")] :=
  agent_run_empty_toolUse_batch demoImpls noCancel [Message.user "hi"] 0
    [ContentBlock.text "hmm"] [Except.ok ([ContentBlock.text "done"], "end_turn")]
    rfl rfl
